import Mathlib

/-!
Verification model of the sonic-boom buffered writer (src/index.js).

The writer accepts enqueue calls (`write` / `writeBuffer`), coalesces the
data into chunks bounded by `maxWrite`, and hands chunks to the OS write
primitive one at a time; the `release` callback accounts for the bytes the
OS actually accepted, re-submits partial remainders, and dispatches further
chunks.  Byte sequences are modelled as `List Nat`; `_len` is an `Int`
because the JavaScript counter is clamped only at specific points; fallible
operations return `Except`; OS outcomes (written byte counts, error codes,
fsync results) are passed in explicitly so that every definition is an
executable function of its inputs.

Field and function names follow src/index.js: `len` is `_len`, `bufs` is
`_bufs` in utf8 mode, `bufs2`/`lens` are `_bufs`/`_lens` in buffer mode,
`writingBuf` is `_writingBuf`, `hwm` is `_hwm`, `fsyncFlag` is `_fsync`.
Ghost fields `enqueued`, `delivered`, `dropEvents` record the byte streams
observed at the interface (arguments of enqueue calls, byte prefixes handed
to the OS, and payloads of emitted drop events); they are write-only
history variables and never influence control flow.
-/

namespace SB

/-- A byte sequence (the content of a JavaScript string or Buffer). -/
abbrev Bytes := List Nat

/-- OS error classes distinguished by the code: `EAGAIN`/`EBUSY` are the
retryable classes, `other` stands for every other error code. -/
inductive ErrCode
  | EAGAIN
  | EBUSY
  | other
  deriving DecidableEq

/-- Errors the writer itself raises. -/
inductive SbError
  | destroyed
  | notReady
  | noFile
  | os (c : ErrCode)
  deriving DecidableEq

/-- The writer state (the fields of a `SonicBoom` instance in src/index.js,
plus ghost history fields). -/
structure SonicState where
  /-- Source `this._len`: tracked buffered length. -/
  len : Int
  /-- Source `this.fd`: file descriptor, -1 until open completes. -/
  fd : Int
  /-- Source `this.file`: backing path, `none` when constructed from a descriptor. -/
  file : Option String
  /-- Source `this._bufs` in utf8 content mode: pending chunks. -/
  bufs : List Bytes
  /-- Source `this._bufs` in buffer content mode: pending chunks, each a list of buffers. -/
  bufs2 : List (List Bytes)
  /-- Source `this._lens` in buffer content mode: per-chunk byte counts. -/
  lens : List Nat
  /-- Source `this._writingBuf`: the chunk currently submitted to the OS. -/
  writingBuf : Bytes
  /-- Source `this._writing`. -/
  writing : Bool
  /-- Source `this._ending`. -/
  ending : Bool
  /-- Source `this._reopening`. -/
  reopening : Bool
  /-- Source `this._opening`. -/
  opening : Bool
  /-- Source `this.destroyed`. -/
  destroyed : Bool
  /-- Source `this.minLength`. -/
  minLength : Nat
  /-- Source `this.maxLength`: 0 means unbounded. -/
  maxLength : Nat
  /-- Source `this.maxWrite`. -/
  maxWrite : Nat
  /-- Source `this._hwm`. -/
  hwm : Nat
  /-- Source `this._fsync`. -/
  fsyncFlag : Bool
  /-- Source `this.retryEAGAIN(err, writeBufferLen, remainingBufferLen)`. -/
  retryEAGAIN : ErrCode → Nat → Int → Bool
  /-- Ghost: concatenation of the arguments of all enqueue calls so far. -/
  enqueued : Bytes
  /-- Ghost: concatenation of the byte prefixes the OS reported written. -/
  delivered : Bytes
  /-- Ghost: payloads of all emitted `drop` events, in order. -/
  dropEvents : List Bytes

/-- Source function `mergeBuf(bufs, len)` (src/index.js lines 262-272): concatenate the
buffers of one chunk.  The JavaScript `len` argument is only the
total-length hint handed to `Buffer.concat`, so it does not appear here. -/
def mergeBuf : List Bytes → Bytes
  | [] => []
  | [b] => b
  | bs => bs.flatten

/-- Source function `_actualWrite` in utf8 mode, up to the OS call (src/index.js lines
580-583): set `_writing`, and pick the submitted chunk as
`this._writingBuf || this._bufs.shift() || ''`.  The OS write it then
issues is modelled by the separate release/osStep functions, matching the
asynchronous (callback) execution discipline. -/
def actualWriteSelect (s : SonicState) : SonicState :=
  if s.writingBuf.length ≠ 0 then { s with writing := true }
  else
    match s.bufs with
    | [] => { s with writing := true }
    | b :: rest => { s with writing := true, writingBuf := b, bufs := rest }

/-- Source function `_actualWrite` in buffer mode, up to the OS call (src/index.js lines
597-600): `this._writingBuf.length ? this._writingBuf :
mergeBuf(this._bufs.shift(), this._lens.shift())`. -/
def actualWriteSelectBuffer (s : SonicState) : SonicState :=
  if s.writingBuf.length ≠ 0 then { s with writing := true }
  else { s with
           writing := true,
           writingBuf := mergeBuf (s.bufs2.headD []),
           bufs2 := s.bufs2.tail,
           lens := s.lens.tail }

/-- The chunk-append decision of `write` (src/index.js lines 287-294): start
a new chunk when there is none or the tail chunk would outgrow `maxWrite`,
otherwise extend the tail chunk. -/
def chunkAppend (bufs : List Bytes) (data : Bytes) (maxWrite : Nat) : List Bytes :=
  match bufs.getLast? with
  | none => bufs ++ [data]
  | some tail =>
    if tail.length + data.length > maxWrite then bufs ++ [data]
    else bufs.dropLast ++ [tail ++ data]

/-- The body of `write(data)` in utf8 mode after the destroyed guard
(src/index.js lines 279-302), pairing the post-call state with the
backpressure boolean `this._len < this._hwm`.  The dispatch
`this._actualWrite()` is modelled by `actualWriteSelect`: in the deferred
(async) discipline the OS write result arrives later through `release`, so
the call itself only selects the chunk and sets `_writing`. -/
def writeStep (s : SonicState) (data : Bytes) : SonicState × Bool :=
  let len : Int := s.len + data.length
  if s.maxLength ≠ 0 ∧ len > (s.maxLength : Int) then
    ({ s with
         enqueued := s.enqueued ++ data,
         dropEvents := s.dropEvents ++ [data] },
     decide (s.len < (s.hwm : Int)))
  else
    let s1 := { s with
                  bufs := chunkAppend s.bufs data s.maxWrite,
                  len := len,
                  enqueued := s.enqueued ++ data }
    let s2 := if ¬ s1.writing ∧ s1.len ≥ (s1.minLength : Int) then actualWriteSelect s1 else s1
    (s2, decide (s2.len < (s2.hwm : Int)))

/-- Source function `write(data)` in utf8 mode (src/index.js lines 274-303): throws when
destroyed, otherwise runs `writeStep`. -/
def write (s : SonicState) (data : Bytes) : Except SbError (SonicState × Bool) :=
  if s.destroyed then .error .destroyed
  else .ok (writeStep s data)

/-- The chunk-append decision of `writeBuffer` (src/index.js lines 319-328),
returning the updated `_bufs` and `_lens`. -/
def chunkAppendBuf (bufs2 : List (List Bytes)) (lens : List Nat) (data : Bytes)
    (maxWrite : Nat) : List (List Bytes) × List Nat :=
  if bufs2 = [] ∨ lens.getLastD 0 + data.length > maxWrite then
    (bufs2 ++ [[data]], lens ++ [data.length])
  else
    (bufs2.dropLast ++ [bufs2.getLastD [] ++ [data]],
     lens.dropLast ++ [lens.getLastD 0 + data.length])

/-- The body of `writeBuffer(data)` after the destroyed guard
(src/index.js lines 310-336). -/
def writeBufferStep (s : SonicState) (data : Bytes) : SonicState × Bool :=
  let len : Int := s.len + data.length
  if s.maxLength ≠ 0 ∧ len > (s.maxLength : Int) then
    ({ s with
         enqueued := s.enqueued ++ data,
         dropEvents := s.dropEvents ++ [data] },
     decide (s.len < (s.hwm : Int)))
  else
    let bl := chunkAppendBuf s.bufs2 s.lens data s.maxWrite
    let s1 := { s with
                  bufs2 := bl.1,
                  lens := bl.2,
                  len := len,
                  enqueued := s.enqueued ++ data }
    let s2 := if ¬ s1.writing ∧ s1.len ≥ (s1.minLength : Int) then
                actualWriteSelectBuffer s1
              else s1
    (s2, decide (s2.len < (s2.hwm : Int)))

/-- Source function `write(data)` in buffer mode, i.e. `writeBuffer` (src/index.js lines
305-337): throws when destroyed, otherwise runs `writeBufferStep`. -/
def writeBuffer (s : SonicState) (data : Bytes) : Except SbError (SonicState × Bool) :=
  if s.destroyed then .error .destroyed
  else .ok (writeBufferStep s data)

/-- The accounting done by `release` on a successful OS write of `n` bytes
(src/index.js lines 180-195): emit the `write` event, subtract `n` from
`_len` clamping at 0, and drop the written prefix from `_writingBuf`. -/
def releaseAcct (s : SonicState) (n : Nat) : SonicState :=
  let l : Int := s.len - n
  { s with
      len := if l < 0 then 0 else l,
      writingBuf := s.writingBuf.drop n,
      delivered := s.delivered ++ s.writingBuf.take n }

/-- The re-submission `release` performs when `_writingBuf` still has
content after the accounting (src/index.js lines 197-201): `fsWrite()` is
called again with the current `_writingBuf`. -/
def releaseResubmit (s : SonicState) : Option Bytes :=
  if s.writingBuf.length ≠ 0 then some s.writingBuf else none

/-- The dispatch decision at the end of `release` (src/index.js lines
219-243): honor a pending reopen, else write the next chunk when `_len`
still exceeds `minLength`, else finish an `end()` (writing remaining data,
or closing — `actualClose` marks destroyed and clears the buffers), else
go idle and signal drain. -/
def releaseDispatch (s : SonicState) : SonicState :=
  if s.reopening then { s with writing := false, reopening := false }
  else if s.len > (s.minLength : Int) then actualWriteSelect s
  else if s.ending then
    if s.len > 0 then actualWriteSelect s
    else { s with
             writing := false, destroyed := true,
             bufs := [], bufs2 := [], lens := [] }
  else { s with writing := false }

/-- The tail of `release` after the accounting (src/index.js lines
197-243), for the asynchronous discipline: a remaining `_writingBuf` is
re-submitted and the callback returns; otherwise, when `_fsync` is set,
`fs.fsyncSync(this.fd)` runs unprotected — a failing fsync (`some e`)
therefore propagates as a raised error — and then the dispatch decision
runs. -/
def releaseTail (s : SonicState) (fsyncRes : Option ErrCode) : Except ErrCode SonicState :=
  if s.writingBuf.length ≠ 0 then .ok s
  else if s.fsyncFlag then
    match fsyncRes with
    | some e => .error e
    | none => .ok (releaseDispatch s)
  else .ok (releaseDispatch s)

/-- One successful OS write observed by the writer: the OS accepts `k`
bytes (at most the submitted chunk) and `release` runs with a `null`
error — the accounting, then either the re-submission of a non-empty
remainder or the dispatch decision (this is `releaseTail` specialised to a
successful fsync; failing fsyncs are the subject of C6). -/
def osStep (s : SonicState) (k : Nat) : SonicState :=
  if s.writing then
    let s1 := releaseAcct s (min k s.writingBuf.length)
    if s1.writingBuf.length ≠ 0 then s1 else releaseDispatch s1
  else s

/-- Interface events of the dispatch machine: an enqueue call, or the OS
completing a write of `k` bytes. -/
inductive Ev
  | enq (data : Bytes)
  | osw (k : Nat)

/-- One machine step (utf8 mode): `enq` runs `write` (a throwing call on a
destroyed writer leaves the state unchanged), `osw` runs the release path
for a successful, possibly partial, OS write. -/
def step (s : SonicState) : Ev → SonicState
  | .enq d => if s.destroyed then s else (writeStep s d).1
  | .osw k => osStep s k

/-- Run the machine over a list of events. -/
def runFrom (s : SonicState) (evs : List Ev) : SonicState :=
  evs.foldl step s

/-- Byte conservation: the bytes already handed to the OS, followed by the
in-flight chunk and the pending chunks, are exactly the bytes enqueued. -/
def Conserved (s : SonicState) : Prop :=
  s.delivered ++ s.writingBuf ++ s.bufs.flatten = s.enqueued

/-- Outcome of one blocking OS write attempt, as supplied by the
environment: `fs.writeSync` returned `n`, or threw with code `c`. -/
inductive WriteRes
  | ok (n : Nat)
  | err (c : ErrCode)

/-- Outcome of a `flushSync` call. -/
inductive FSRes
  /-- The loop drained everything and returned normally. -/
  | done (s : SonicState)
  /-- The supplied list of OS outcomes ran out before the loop finished
  (the real loop would keep issuing writes). -/
  | pending (s : SonicState) (buf : Bytes)
  /-- The loop threw `e` out of the call. -/
  | raised (s : SonicState) (e : ErrCode)
  /-- Threw `SonicBoom destroyed`. -/
  | threwDestroyed
  /-- Threw `sonic boom is not ready yet`. -/
  | threwNotReady

/-- Whether a `flushSync` outcome is a normal completion. -/
def FSRes.isDone : FSRes → Bool
  | .done _ => true
  | _ => false

/-- Whether a `flushSync` outcome is a thrown OS error. -/
def FSRes.isRaised : FSRes → Bool
  | .raised _ _ => true
  | _ => false

/-- The `while` loop of `flushSync` (src/index.js lines 512-532), consuming
one OS outcome per iteration.  `buf` is the local variable of the loop: the
not-yet-written remainder of `_bufs[0]` (which is only shifted off once
fully written).  On a thrown write error the loop re-raises only when the
code is of the retryable class (`EAGAIN`/`EBUSY`) and `retryEAGAIN`
declines; every other error falls through to the `sleep` and the chunk is
retried in place. -/
def flushSyncLoop (s : SonicState) (buf : Bytes) : List WriteRes → FSRes
  | [] => if s.bufs = [] ∧ buf = [] then .done s else .pending s buf
  | r :: rs =>
    if s.bufs = [] ∧ buf = [] then .done s
    else
      let buf1 := if buf = [] then s.bufs.headD [] else buf
      match r with
      | .ok n =>
        let buf2 := buf1.drop n
        let l : Int := s.len - n
        let s1 := { s with
                      len := max l 0,
                      delivered := s.delivered ++ buf1.take n }
        if buf2 = [] then flushSyncLoop { s1 with bufs := s1.bufs.tail } [] rs
        else flushSyncLoop s1 buf2 rs
      | .err c =>
        if (c = .EAGAIN ∨ c = .EBUSY) ∧
            ¬ s.retryEAGAIN c buf1.length (s.len - buf1.length) then
          .raised s c
        else flushSyncLoop s buf1 rs

/-- Source function `flushSync` in utf8 mode (src/index.js lines 498-533): destroyed and
not-ready guards, un-shift of a non-in-flight `_writingBuf` back onto
`_bufs`, then the write loop. -/
def flushSync (s : SonicState) (rs : List WriteRes) : FSRes :=
  if s.destroyed then .threwDestroyed
  else if s.fd < 0 then .threwNotReady
  else
    let s1 := if ¬ s.writing ∧ s.writingBuf.length > 0 then
                { s with bufs := s.writingBuf :: s.bufs, writingBuf := [] }
              else s
    flushSyncLoop s1 [] rs

/-- The `while` loop of `flushBufferSync` (src/index.js lines 549-570):
as `flushSyncLoop`, with each chunk merged from its buffer list and
`_lens` shifted alongside `_bufs`. -/
def flushBufferSyncLoop (s : SonicState) (buf : Bytes) : List WriteRes → FSRes
  | [] => if s.bufs2 = [] ∧ buf = [] then .done s else .pending s buf
  | r :: rs =>
    if s.bufs2 = [] ∧ buf = [] then .done s
    else
      let buf1 := if buf = [] then mergeBuf (s.bufs2.headD []) else buf
      match r with
      | .ok n =>
        let buf2 := buf1.drop n
        let l : Int := s.len - n
        let s1 := { s with
                      len := max l 0,
                      delivered := s.delivered ++ buf1.take n }
        if buf2 = [] then
          flushBufferSyncLoop { s1 with bufs2 := s1.bufs2.tail, lens := s1.lens.tail } [] rs
        else flushBufferSyncLoop s1 buf2 rs
      | .err c =>
        if (c = .EAGAIN ∨ c = .EBUSY) ∧
            ¬ s.retryEAGAIN c buf1.length (s.len - buf1.length) then
          .raised s c
        else flushBufferSyncLoop s buf1 rs

/-- Source function `flushSync` in buffer mode, i.e. `flushBufferSync` (src/index.js lines
535-571).  Note the source un-shifts `[this._writingBuf]` onto `_bufs`
without un-shifting a matching entry onto `_lens`; `_lens` only feeds the
`Buffer.concat` length hint, which `mergeBuf` here does not use. -/
def flushBufferSync (s : SonicState) (rs : List WriteRes) : FSRes :=
  if s.destroyed then .threwDestroyed
  else if s.fd < 0 then .threwNotReady
  else
    let s1 := if ¬ s.writing ∧ s.writingBuf.length > 0 then
                { s with bufs2 := [s.writingBuf] :: s.bufs2, writingBuf := [] }
              else s
    flushBufferSyncLoop s1 [] rs

/-- Observable outcome of the close sequence. -/
structure CloseOut where
  /-- The state after the synchronous part of the close. -/
  st : SonicState
  /-- The close was deferred on a `ready` listener because `fd === -1`. -/
  deferredUntilReady : Bool
  /-- The `error` emitted by `done`, if any. -/
  errEmitted : Option ErrCode
  /-- Whether `finish` was emitted. -/
  finishEmitted : Bool
  /-- Whether `close` was emitted. -/
  closeEmitted : Bool

/-- Source function `actualClose` (src/index.js lines 614-647).  With `fd === -1` the whole
sequence is deferred until `ready` and nothing else happens now.  Otherwise
`destroyed` is set and `_bufs`/`_lens` are cleared, `fs.fsync` runs with
its error skipped (the `fsyncRes` argument is deliberately unused, exactly
as `closeWrapped` takes no error parameter), the descriptor is closed
unless it is stdout/stderr, and `done` emits `error` on a close failure or
else `finish` (only when gracefully ending with no write in flight)
followed by `close`. -/
def actualClose (s : SonicState) (fsyncRes : Option ErrCode) (closeRes : Option ErrCode) :
    CloseOut :=
  if s.fd = -1 then ⟨s, true, none, false, false⟩
  else
    let s1 := { s with destroyed := true, bufs := [], bufs2 := [], lens := [] }
    let closeErr := if s1.fd ≠ 1 ∧ s1.fd ≠ 2 then closeRes else none
    match closeErr with
    | some e => ⟨s1, false, some e, false, false⟩
    | none => ⟨s1, false, none, s1.ending ∧ ¬ s1.writing, true⟩

/-- Source method `destroy()` (src/index.js lines 573-578): a no-op when already
destroyed, otherwise the close sequence runs. -/
def destroy (s : SonicState) (fsyncRes : Option ErrCode) (closeRes : Option ErrCode) :
    CloseOut :=
  if s.destroyed then ⟨s, false, none, false, false⟩
  else actualClose s fsyncRes closeRes

/-- Outcome of a `reopen` call. -/
inductive ReopenRes
  /-- Threw `SonicBoom destroyed`. -/
  | threwDestroyed
  /-- Still opening: retried from a `ready` listener. -/
  | deferredUntilReady
  /-- Ending: silently ignored. -/
  | ignoredEnding
  /-- Threw `Unable to reopen a file descriptor, you must pass a file to
  SonicBoom`. -/
  | threwNoFile
  /-- Flag `_reopening` set; the actual reopen waits for the in-flight write. -/
  | deferredUntilWriteEnd (s : SonicState)
  /-- Function `openFile` is entered on `target`. -/
  | proceeds (s : SonicState) (target : String)

/-- Source method `reopen(file)` (src/index.js lines 429-467).  Note the missing-path
guard is `if (!this.file)` — it tests only the stored path, not the
argument. -/
def reopen (s : SonicState) (fileArg : Option String) : ReopenRes :=
  if s.destroyed then .threwDestroyed
  else if s.opening then .deferredUntilReady
  else if s.ending then .ignoredEnding
  else
    match s.file with
    | none => .threwNoFile
    | some f =>
      let s1 := { s with reopening := true }
      if s1.writing then .deferredUntilWriteEnd s1
      else .proceeds s1 (fileArg.getD f)

/-- Outcome of a `flush` call. -/
inductive FlushOut
  /-- Threw `SonicBoom destroyed` (no callback supplied). -/
  | threwDestroyed
  /-- The callback was invoked with the `SonicBoom destroyed` error and the
  call returned normally. -/
  | cbDestroyedError
  /-- Case `minLength <= 0`: the callback (when present) was invoked with no
  error and the call returned. -/
  | immediate
  /-- A write is in flight: the drain/error listeners were registered (when
  a callback was supplied) and the call returned. -/
  | waitingWrite (s : SonicState)
  /-- A dispatch cycle was started. -/
  | dispatched (s : SonicState)

/-- Source function `flush(cb)` in utf8 mode (src/index.js lines 358-391).  `hasCb` states
whether a callback was supplied (the callback-is-a-function check cannot
fail in this model). -/
def flush (s : SonicState) (hasCb : Bool) : FlushOut :=
  if s.destroyed then
    if hasCb then .cbDestroyedError else .threwDestroyed
  else if s.minLength = 0 then .immediate
  else if s.writing then .waitingWrite s
  else
    let s1 := if s.bufs = [] then { s with bufs := [[]] } else s
    .dispatched (actualWriteSelect s1)

/-- Source function `flush(cb)` in buffer mode, i.e. `flushBuffer` (src/index.js lines
393-427). -/
def flushBuffer (s : SonicState) (hasCb : Bool) : FlushOut :=
  if s.destroyed then
    if hasCb then .cbDestroyedError else .threwDestroyed
  else if s.minLength = 0 then .immediate
  else if s.writing then .waitingWrite s
  else
    let s1 := if s.bufs2 = [] then { s with bufs2 := [[]], lens := s.lens ++ [0] } else s
    .dispatched (actualWriteSelectBuffer s1)

/-- A freshly readied writer with a given configuration: descriptor open,
buffers empty, idle.  Used to build the concrete evaluation states below. -/
def mkState (minLength maxLength maxWrite hwm : Nat) : SonicState where
  len := 0
  fd := 3
  file := some "out.log"
  bufs := []
  bufs2 := []
  lens := []
  writingBuf := []
  writing := false
  ending := false
  reopening := false
  opening := false
  destroyed := false
  minLength := minLength
  maxLength := maxLength
  maxWrite := maxWrite
  hwm := hwm
  fsyncFlag := false
  retryEAGAIN := fun _ _ _ => true
  enqueued := []
  delivered := []
  dropEvents := []

/-- A concrete state for evaluation: `maxWrite = 4`, a 3-byte tail chunk
pending in both content modes, and a write in flight. -/
def exTail3 : SonicState :=
  { mkState 0 0 4 16387 with
      writing := true, bufs := [[9, 9, 9]], lens := [3], bufs2 := [[[9, 9, 9]]], len := 3 }

/-- A concrete state for evaluation: already destroyed. -/
def exDestroyed : SonicState :=
  { mkState 4 0 16384 16387 with destroyed := true }

/-- A concrete state for evaluation: constructed from a bare descriptor,
so no backing path is stored. -/
def exNoFile : SonicState :=
  { mkState 0 0 16384 16387 with file := none }

/-- A concrete state for evaluation: still opening (`fd = -1`) with two
bytes already buffered. -/
def exOpeningBuf : SonicState :=
  { mkState 0 0 16384 16387 with fd := -1, opening := true, bufs := [[1, 2]], len := 2 }

/-- A concrete state for evaluation: `fsyncOnEachWrite` set and the
in-flight chunk just fully written. -/
def exFsync : SonicState :=
  { mkState 0 0 16384 16387 with fsyncFlag := true, writing := true, len := 0 }

/-- A concrete event trace for evaluation: two enqueues interleaved with
partial and complete OS writes. -/
def c1evs : List Ev :=
  [Ev.enq [1, 2], Ev.osw 1, Ev.osw 5, Ev.enq [3], Ev.osw 1]

/-- A concrete state for evaluation: one 2-byte chunk pending in both
content modes, default (always-true) retry predicate. -/
def exFlushChunk : SonicState :=
  { mkState 0 0 16384 16387 with
      bufs := [[7, 7]], bufs2 := [[[7, 7]]], lens := [2], len := 2 }

/-- A concrete state for evaluation: one 2-byte chunk pending and a retry
predicate that always declines. -/
def exRefuse : SonicState :=
  { mkState 0 0 16384 16387 with
      bufs := [[7, 7]], bufs2 := [[[7, 7]]], lens := [2], len := 2,
      retryEAGAIN := fun _ _ _ => false }

/-- The state after a `write` call (unchanged when the call throws). -/
def writeSt (s : SonicState) (d : Bytes) : SonicState :=
  if s.destroyed then s else (writeStep s d).1

/-- The boolean returned by a `write` call (`false` when the call throws). -/
def writeRet (s : SonicState) (d : Bytes) : Bool :=
  if s.destroyed then false else (writeStep s d).2

/-- The state after a `writeBuffer` call (unchanged when the call throws). -/
def writeBufferSt (s : SonicState) (d : Bytes) : SonicState :=
  if s.destroyed then s else (writeBufferStep s d).1

/-- The boolean returned by a `writeBuffer` call (`false` when the call
throws). -/
def writeBufferRet (s : SonicState) (d : Bytes) : Bool :=
  if s.destroyed then false else (writeBufferStep s d).2

/-- Helper fact: `actualWriteSelect` only moves a chunk and sets `_writing`; `_len` is
untouched. -/
theorem actualWriteSelect_len (s : SonicState) : (actualWriteSelect s).len = s.len := by
  unfold actualWriteSelect
  split
  · rfl
  · cases s.bufs <;> rfl

/-- Helper fact: `actualWriteSelect` leaves the configuration field `_hwm` untouched. -/
theorem actualWriteSelect_hwm (s : SonicState) : (actualWriteSelect s).hwm = s.hwm := by
  unfold actualWriteSelect
  split
  · rfl
  · cases s.bufs <;> rfl

/-- Helper fact: `actualWriteSelectBuffer` only moves a chunk and sets `_writing`;
`_len` is untouched. -/
theorem actualWriteSelectBuffer_len (s : SonicState) :
    (actualWriteSelectBuffer s).len = s.len := by
  unfold actualWriteSelectBuffer
  split <;> rfl

/-- Helper fact: `actualWriteSelectBuffer` leaves the configuration field `_hwm`
untouched. -/
theorem actualWriteSelectBuffer_hwm (s : SonicState) :
    (actualWriteSelectBuffer s).hwm = s.hwm := by
  unfold actualWriteSelectBuffer
  split <;> rfl

/-- C2: an enqueue that overflows a positive `maxLength` buffers nothing —
the call only records the `drop` event carrying exactly the rejected data
(the two updated fields below are ghost history fields, so `_len`, the
pending chunks and `_writingBuf` are unchanged) — and returns `_len < _hwm`
computed on the unchanged `_len`; in both content modes. -/
theorem c2_drop_keeps_state (s : SonicState) (d : Bytes)
    (h1 : s.destroyed = false) (h2 : s.maxLength ≠ 0)
    (h3 : s.len + (d.length : Int) > (s.maxLength : Int)) :
    write s d = Except.ok ({ s with
                               enqueued := s.enqueued ++ d,
                               dropEvents := s.dropEvents ++ [d] },
                           decide (s.len < (s.hwm : Int)))
  ∧ writeBuffer s d = Except.ok ({ s with
                                     enqueued := s.enqueued ++ d,
                                     dropEvents := s.dropEvents ++ [d] },
                                 decide (s.len < (s.hwm : Int))) := by
  constructor
  · unfold write writeStep
    rw [if_neg (by simp [h1]), if_pos ⟨h2, h3⟩]
  · unfold writeBuffer writeBufferStep
    rw [if_neg (by simp [h1]), if_pos ⟨h2, h3⟩]

/-- C2 witness: `maxLength = 500`, `_len = 480`, enqueueing 50 bytes drops
those 50 bytes and `_len` remains 480 (the returned boolean is `true` since
`480 < 16387`). -/
theorem c2_drop_keeps_state_witness :
    write { mkState 0 500 16384 16387 with len := 480 } (List.replicate 50 7) =
      Except.ok ({ mkState 0 500 16384 16387 with
                     len := 480,
                     enqueued := List.replicate 50 7,
                     dropEvents := [List.replicate 50 7] },
                 true)
  ∧ writeBuffer { mkState 0 500 16384 16387 with len := 480 } (List.replicate 50 7) =
      Except.ok ({ mkState 0 500 16384 16387 with
                     len := 480,
                     enqueued := List.replicate 50 7,
                     dropEvents := [List.replicate 50 7] },
                 true) :=
  c2_drop_keeps_state { mkState 0 500 16384 16387 with len := 480 }
    (List.replicate 50 7) (by decide) (by decide) (by decide)

/-- C3: an enqueue call that is not rejected by the drop threshold sets
`_len` to the prospective length `_len + data.length`, and returns `false`
exactly when that post-update `_len` is at or above `_hwm` (equivalently,
`true` exactly when it is strictly below) — in both content modes. -/
theorem c3_backpressure_return (s : SonicState) (d : Bytes)
    (h1 : s.destroyed = false)
    (h2 : ¬ (s.maxLength ≠ 0 ∧ s.len + (d.length : Int) > (s.maxLength : Int))) :
    (writeSt s d).len = s.len + (d.length : Int)
  ∧ (writeRet s d = false ↔ ((s.hwm : Int) ≤ (writeSt s d).len))
  ∧ (writeBufferSt s d).len = s.len + (d.length : Int)
  ∧ (writeBufferRet s d = false ↔ ((s.hwm : Int) ≤ (writeBufferSt s d).len)) := by
  have hnd : ¬ (s.destroyed = true) := by simp [h1]
  simp only [writeSt, writeRet, writeBufferSt, writeBufferRet, writeStep, writeBufferStep,
             if_neg hnd, if_neg h2]
  refine ⟨?_, ?_, ?_, ?_⟩ <;>
    split <;>
    simp [actualWriteSelect_len, actualWriteSelect_hwm,
          actualWriteSelectBuffer_len, actualWriteSelectBuffer_hwm,
          decide_eq_false_iff_not, not_lt]

/-- C3 witness: with `hwm = 5`, enqueueing 6 bytes into an empty writer
puts the post-update `_len` at `6 ≥ 5`, so the call returns `false`. -/
theorem c3_backpressure_return_witness :
    (writeSt (mkState 0 0 10 5) [1, 2, 3, 4, 5, 6]).len =
        (mkState 0 0 10 5).len + (([1, 2, 3, 4, 5, 6] : Bytes).length : Int)
  ∧ (writeRet (mkState 0 0 10 5) [1, 2, 3, 4, 5, 6] = false ↔
      (((mkState 0 0 10 5).hwm : Int) ≤ (writeSt (mkState 0 0 10 5) [1, 2, 3, 4, 5, 6]).len))
  ∧ (writeBufferSt (mkState 0 0 10 5) [1, 2, 3, 4, 5, 6]).len =
        (mkState 0 0 10 5).len + (([1, 2, 3, 4, 5, 6] : Bytes).length : Int)
  ∧ (writeBufferRet (mkState 0 0 10 5) [1, 2, 3, 4, 5, 6] = false ↔
      (((mkState 0 0 10 5).hwm : Int) ≤
        (writeBufferSt (mkState 0 0 10 5) [1, 2, 3, 4, 5, 6]).len)) :=
  c3_backpressure_return (mkState 0 0 10 5) [1, 2, 3, 4, 5, 6] (by decide) (by decide)

/-- C9: on a successful OS write of `n` bytes, the release accounting
decreases `_len` by `n` clamped at 0 (hence `_len` is never negative
afterwards), discards exactly the written prefix of the in-flight chunk
(prefix and remainder recombine to the original chunk: nothing reordered
or duplicated), records exactly that prefix as delivered, and on a partial
write re-submits precisely the remainder of the same chunk. -/
theorem c9_release_accounting (s : SonicState) (n : Nat) (hn : n ≤ s.writingBuf.length) :
    (releaseAcct s n).len = max (s.len - (n : Int)) 0
  ∧ 0 ≤ (releaseAcct s n).len
  ∧ (releaseAcct s n).writingBuf = s.writingBuf.drop n
  ∧ s.writingBuf.take n ++ (releaseAcct s n).writingBuf = s.writingBuf
  ∧ (releaseAcct s n).delivered = s.delivered ++ s.writingBuf.take n
  ∧ (n < s.writingBuf.length →
      releaseResubmit (releaseAcct s n) = some (s.writingBuf.drop n)) := by
  unfold releaseAcct releaseResubmit
  refine ⟨?_, ?_, rfl, List.take_append_drop n s.writingBuf, rfl, ?_⟩
  · simp only []
    split <;> omega
  · simp only []
    split <;> omega
  · intro h
    simp only []
    rw [if_pos]
    simp [List.length_drop]
    omega

/-- C9 witness: a chunk of 4 bytes with 3 reported written: `_len` drops
from 4 to 1, the prefix `[1, 2, 3]` is delivered, and the remainder `[4]`
is re-submitted. -/
theorem c9_release_accounting_witness :
    (releaseAcct { mkState 0 0 10 5 with writingBuf := [1, 2, 3, 4], len := 4, writing := true }
        3).len =
      max (({ mkState 0 0 10 5 with writingBuf := [1, 2, 3, 4], len := 4, writing := true }
          : SonicState).len - (3 : Int)) 0
  ∧ 0 ≤ (releaseAcct
        { mkState 0 0 10 5 with writingBuf := [1, 2, 3, 4], len := 4, writing := true } 3).len
  ∧ (releaseAcct
        { mkState 0 0 10 5 with writingBuf := [1, 2, 3, 4], len := 4, writing := true }
        3).writingBuf = ([1, 2, 3, 4] : Bytes).drop 3
  ∧ ([1, 2, 3, 4] : Bytes).take 3 ++ (releaseAcct
        { mkState 0 0 10 5 with writingBuf := [1, 2, 3, 4], len := 4, writing := true }
        3).writingBuf = [1, 2, 3, 4]
  ∧ (releaseAcct
        { mkState 0 0 10 5 with writingBuf := [1, 2, 3, 4], len := 4, writing := true }
        3).delivered =
      ({ mkState 0 0 10 5 with writingBuf := [1, 2, 3, 4], len := 4, writing := true }
          : SonicState).delivered ++ ([1, 2, 3, 4] : Bytes).take 3
  ∧ ((3 : Nat) < ([1, 2, 3, 4] : Bytes).length →
      releaseResubmit (releaseAcct
          { mkState 0 0 10 5 with writingBuf := [1, 2, 3, 4], len := 4, writing := true } 3) =
        some (([1, 2, 3, 4] : Bytes).drop 3)) :=
  c9_release_accounting
    { mkState 0 0 10 5 with writingBuf := [1, 2, 3, 4], len := 4, writing := true }
    3 (by decide)

/-- If every chunk respects the `maxWrite` bound and the appended datum
does too, every chunk of `chunkAppend` respects it. -/
theorem chunkAppend_le (bufs : List Bytes) (d : Bytes) (mw : Nat)
    (hb : ∀ c ∈ bufs, c.length ≤ mw) (hd : d.length ≤ mw) :
    ∀ c ∈ chunkAppend bufs d mw, c.length ≤ mw := by
  intro c hc
  rcases hL : bufs.getLast? with _ | tail
  · simp only [chunkAppend, hL] at hc
    rcases List.mem_append.mp hc with h | h
    · exact hb c h
    · simp only [List.mem_singleton] at h
      exact h ▸ hd
  · simp only [chunkAppend, hL] at hc
    split at hc
    · rcases List.mem_append.mp hc with h | h
      · exact hb c h
      · simp only [List.mem_singleton] at h
        exact h ▸ hd
    · rcases List.mem_append.mp hc with h | h
      · exact hb c (List.mem_of_mem_dropLast h)
      · simp only [List.mem_singleton] at h
        subst h
        have htail : tail ∈ bufs := by
          obtain ⟨hne, heq⟩ :=
            List.mem_getLast?_eq_getLast (l := bufs) (x := tail) (by rw [hL]; rfl)
          exact heq ▸ List.getLast_mem hne
        have := hb tail htail
        simp only [List.length_append]
        omega

/-- If every per-chunk length respects the `maxWrite` bound and the
appended datum does too, every length in `chunkAppendBuf` respects it. -/
theorem chunkAppendBuf_le (bufs2 : List (List Bytes)) (lens : List Nat) (d : Bytes) (mw : Nat)
    (hb : ∀ l ∈ lens, l ≤ mw) (hd : d.length ≤ mw) :
    ∀ l ∈ (chunkAppendBuf bufs2 lens d mw).2, l ≤ mw := by
  intro l hl
  unfold chunkAppendBuf at hl
  split at hl
  · rcases List.mem_append.mp hl with h | h
    · exact hb l h
    · simp only [List.mem_singleton] at h
      exact h ▸ hd
  · next hcond =>
    push_neg at hcond
    rcases List.mem_append.mp hl with h | h
    · exact hb l (List.mem_of_mem_dropLast h)
    · simp only [List.mem_singleton] at h
      subst h
      omega

/-- Helper fact: `actualWriteSelect` leaves behind a subset of the pending chunks. -/
theorem actualWriteSelect_bufs_sub (s : SonicState) :
    ∀ c ∈ (actualWriteSelect s).bufs, c ∈ s.bufs := by
  intro c hc
  unfold actualWriteSelect at hc
  split at hc
  · exact hc
  · rcases hB : s.bufs with _ | ⟨b, rest⟩ <;> rw [hB] at hc
    · exact hc
    · exact List.mem_cons_of_mem b hc

/-- Helper fact: `actualWriteSelectBuffer` leaves behind a subset of the per-chunk
lengths. -/
theorem actualWriteSelectBuffer_lens_sub (s : SonicState) :
    ∀ l ∈ (actualWriteSelectBuffer s).lens, l ∈ s.lens := by
  intro l hl
  unfold actualWriteSelectBuffer at hl
  split at hl
  · exact hl
  · exact (List.tail_sublist s.lens).mem hl

/-- C7 counterexample: with `maxWrite = 4` and a write already in flight, a
single enqueue of 5 bytes becomes a pending chunk of 5 bytes — strictly
larger than `maxWrite`, refuting the claim that the per-chunk bound holds
even for a single enqueue longer than `maxWriteSize`. -/
theorem c7_counterexample :
    (writeSt { mkState 0 0 4 16387 with writing := true } [1, 1, 1, 1, 1]).bufs =
      [[1, 1, 1, 1, 1]]
  ∧ ({ mkState 0 0 4 16387 with writing := true } : SonicState).maxWrite <
      ([1, 1, 1, 1, 1] : Bytes).length := by
  constructor
  · rfl
  · decide

/-- C7 amended: each pending chunk stays within `maxWrite` provided every
enqueued datum is itself at most `maxWrite` bytes (a single oversized
enqueue becomes its own oversized chunk); and the datum extends the tail
chunk exactly when a tail chunk exists and would stay within `maxWrite`,
else a new chunk is started.  Both content modes. -/
theorem c7_chunk_bound (s : SonicState) (d : Bytes)
    (hd : d.length ≤ s.maxWrite)
    (hb : s.bufs.all (fun c => decide (c.length ≤ s.maxWrite)) = true)
    (hb2 : s.lens.all (fun l => decide (l ≤ s.maxWrite)) = true) :
    (writeSt s d).bufs.all (fun c => decide (c.length ≤ s.maxWrite)) = true
  ∧ (writeBufferSt s d).lens.all (fun l => decide (l ≤ s.maxWrite)) = true
  ∧ chunkAppend s.bufs d s.maxWrite =
      (if s.bufs = [] ∨ s.maxWrite < (s.bufs.getLastD []).length + d.length
       then s.bufs ++ [d]
       else s.bufs.dropLast ++ [s.bufs.getLastD [] ++ d]) := by
  simp only [List.all_eq_true, decide_eq_true_eq] at hb hb2 ⊢
  refine ⟨?_, ?_, ?_⟩
  · intro c hc
    unfold writeSt at hc
    split at hc
    · exact hb c hc
    · simp only [writeStep] at hc
      split at hc
      · exact hb c hc
      · have hall : ∀ x ∈ chunkAppend s.bufs d s.maxWrite, x.length ≤ s.maxWrite :=
          chunkAppend_le s.bufs d s.maxWrite hb hd
        split at hc
        · exact hall c (actualWriteSelect_bufs_sub _ c hc)
        · exact hall c hc
  · intro l hl
    unfold writeBufferSt at hl
    split at hl
    · exact hb2 l hl
    · simp only [writeBufferStep] at hl
      split at hl
      · exact hb2 l hl
      · have hall : ∀ x ∈ (chunkAppendBuf s.bufs2 s.lens d s.maxWrite).2, x ≤ s.maxWrite :=
          chunkAppendBuf_le s.bufs2 s.lens d s.maxWrite hb2 hd
        split at hl
        · exact hall l (actualWriteSelectBuffer_lens_sub _ l hl)
        · exact hall l hl
  · rcases hL : s.bufs.getLast? with _ | tail
    · have hnil : s.bufs = [] := List.getLast?_eq_none_iff.mp hL
      simp only [chunkAppend, hL]
      rw [if_pos (Or.inl hnil)]
    · have hne : s.bufs ≠ [] := by
        intro hnil
        rw [hnil] at hL
        simp at hL
      have hD : s.bufs.getLastD [] = tail := by
        rw [List.getLastD_eq_getLast?, hL]
        rfl
      simp only [chunkAppend, hL]
      rw [hD]
      split
      · next hgt =>
        rw [if_pos (Or.inr hgt)]
      · next hle =>
        rw [if_neg]
        push_neg
        exact ⟨hne, by omega⟩

/-- C7 amended witness: with `maxWrite = 4` and a tail chunk of 3 bytes, a
2-byte enqueue starts a new chunk and all chunks stay within the bound. -/
theorem c7_chunk_bound_witness :
    (writeSt exTail3 [8, 8]).bufs.all
      (fun c => decide (c.length ≤ exTail3.maxWrite)) = true
  ∧ (writeBufferSt exTail3 [8, 8]).lens.all
      (fun l => decide (l ≤ exTail3.maxWrite)) = true
  ∧ chunkAppend exTail3.bufs [8, 8] exTail3.maxWrite =
      (if exTail3.bufs = [] ∨
          exTail3.maxWrite < (exTail3.bufs.getLastD []).length + ([8, 8] : Bytes).length
       then exTail3.bufs ++ [[8, 8]]
       else exTail3.bufs.dropLast ++ [exTail3.bufs.getLastD [] ++ [8, 8]]) :=
  c7_chunk_bound exTail3 [8, 8] (by decide) (by decide) (by decide)

/-- C10: `flush` on a destroyed writer invokes the callback with the
destruction error and returns normally when a callback is supplied; the
synchronous throw happens only when no callback is supplied.  Both content
modes. -/
theorem c10_flush_destroyed (s : SonicState) (h : s.destroyed = true) :
    flush s true = FlushOut.cbDestroyedError
  ∧ flush s false = FlushOut.threwDestroyed
  ∧ flushBuffer s true = FlushOut.cbDestroyedError
  ∧ flushBuffer s false = FlushOut.threwDestroyed := by
  unfold flush flushBuffer
  simp [h]

/-- C10 witness: a destroyed writer with `minLength = 4`. -/
theorem c10_flush_destroyed_witness :
    flush exDestroyed true = FlushOut.cbDestroyedError
  ∧ flush exDestroyed false = FlushOut.threwDestroyed
  ∧ flushBuffer exDestroyed true = FlushOut.cbDestroyedError
  ∧ flushBuffer exDestroyed false = FlushOut.threwDestroyed :=
  c10_flush_destroyed exDestroyed (by decide)

/-- C8 counterexample: a writer constructed from a bare descriptor (no
backing path) throws the missing-path error from `reopen` even though a
new path is supplied — refuting the claim that supplying a path is
sufficient for the reopen to proceed. -/
theorem c8_counterexample :
    reopen exNoFile (some "rotated.log") = ReopenRes.threwNoFile := rfl

/-- C8 amended: on an undestroyed, non-opening, non-ending writer, `reopen`
fails with the missing-path error exactly when the writer stores no backing
path — the path argument is never consulted by that guard, so it cannot
rescue a descriptor-constructed writer. -/
theorem c8_reopen_no_file (s : SonicState) (arg : Option String)
    (h1 : s.destroyed = false) (h2 : s.opening = false) (h3 : s.ending = false) :
    reopen s arg = ReopenRes.threwNoFile ↔ s.file = none := by
  unfold reopen
  rw [if_neg (by simp [h1]), if_neg (by simp [h2]), if_neg (by simp [h3])]
  cases hf : s.file with
  | none => simp
  | some f =>
    simp only [reduceCtorEq, iff_false]
    split <;> simp

/-- C8 amended witness: even with a path argument supplied, the
descriptor-constructed writer fails with the missing-path error, matching
`file = none`. -/
theorem c8_reopen_no_file_witness :
    reopen exNoFile (some "rotated.log") = ReopenRes.threwNoFile ↔ exNoFile.file = none :=
  c8_reopen_no_file exNoFile (some "rotated.log") (by decide) (by decide) (by decide)

/-- C5 counterexample: `destroy()` on a not-yet-destroyed writer whose
descriptor is not open yet (`fd = -1`, still opening, two bytes buffered)
neither marks it destroyed nor discards the buffered data — the close is
deferred on a `ready` listener — refuting the claim that every such call
immediately marks the writer destroyed and discards the buffer. -/
theorem c5_counterexample :
    exOpeningBuf.destroyed = false
  ∧ (destroy exOpeningBuf none none).st.destroyed = false
  ∧ (destroy exOpeningBuf none none).st.bufs = [[1, 2]]
  ∧ (destroy exOpeningBuf none none).deferredUntilReady = true := by
  refine ⟨rfl, rfl, rfl, rfl⟩

/-- C5 amended: `destroy()` on a not-yet-destroyed writer whose descriptor
is already open immediately marks it destroyed and discards all pending
buffered chunks before the close sequence, and afterwards enqueues throw
and a second `destroy()` is a no-op (idempotence); when the descriptor is
not yet open the close is instead deferred until `ready`. -/
theorem c5_destroy_discards (s : SonicState) (f c : Option ErrCode) (d : Bytes)
    (h1 : s.destroyed = false) (h2 : s.fd ≠ -1) :
    (destroy s f c).st.destroyed = true
  ∧ (destroy s f c).st.bufs = []
  ∧ (destroy s f c).st.bufs2 = []
  ∧ (destroy s f c).st.lens = []
  ∧ (destroy s f c).deferredUntilReady = false
  ∧ write (destroy s f c).st d = Except.error SbError.destroyed
  ∧ writeBuffer (destroy s f c).st d = Except.error SbError.destroyed
  ∧ destroy (destroy s f c).st f c = ⟨(destroy s f c).st, false, none, false, false⟩ := by
  have hnd : ¬ (s.destroyed = true) := by simp [h1]
  have hst : (destroy s f c).st =
      { s with destroyed := true, bufs := [], bufs2 := [], lens := [] } := by
    simp only [destroy, actualClose, if_neg hnd, if_neg h2]
    split <;> rfl
  have hdef : (destroy s f c).deferredUntilReady = false := by
    simp only [destroy, actualClose, if_neg hnd, if_neg h2]
    split <;> rfl
  refine ⟨by rw [hst], by rw [hst], by rw [hst], by rw [hst], hdef, ?_, ?_, ?_⟩
  · rw [hst]
    unfold write
    rw [if_pos rfl]
  · rw [hst]
    unfold writeBuffer
    rw [if_pos rfl]
  · rw [hst]
    unfold destroy
    rw [if_pos rfl]

/-- C5 amended witness: destroying an open writer holding a 3-byte chunk. -/
theorem c5_destroy_discards_witness :
    (destroy exTail3 none none).st.destroyed = true
  ∧ (destroy exTail3 none none).st.bufs = []
  ∧ (destroy exTail3 none none).st.bufs2 = []
  ∧ (destroy exTail3 none none).st.lens = []
  ∧ (destroy exTail3 none none).deferredUntilReady = false
  ∧ write (destroy exTail3 none none).st [5] = Except.error SbError.destroyed
  ∧ writeBuffer (destroy exTail3 none none).st [5] = Except.error SbError.destroyed
  ∧ destroy (destroy exTail3 none none).st none none =
      ⟨(destroy exTail3 none none).st, false, none, false, false⟩ :=
  c5_destroy_discards exTail3 none none [5] (by decide) (by decide)

/-- C6 counterexample: with `fsyncOnEachWrite` set and the in-flight chunk
just completed, a failing `fs.fsyncSync` propagates out of `release` as a
raised error — refuting the claim that fsync failures never raise in the
write path. -/
theorem c6_counterexample :
    releaseTail exFsync (some ErrCode.other) = Except.error ErrCode.other := rfl

/-- C6 amended: fsync failures are ignored in the close path (`actualClose`
behaves identically whatever the fsync outcome), but in the write path a
fsync failure after a completed chunk is raised out of the release step
(the `fs.fsyncSync` call is not guarded), halting dispatch. -/
theorem c6_fsync_behavior (s : SonicState) (e : ErrCode) (f1 f2 c : Option ErrCode)
    (h1 : s.fsyncFlag = true) (h2 : s.writingBuf = []) :
    releaseTail s (some e) = Except.error e
  ∧ actualClose s f1 c = actualClose s f2 c := by
  constructor
  · unfold releaseTail
    rw [if_neg (by simp [h2]), if_pos h1]
  · rfl

/-- C6 amended witness: concrete fsync failures in both paths. -/
theorem c6_fsync_behavior_witness :
    releaseTail exFsync (some ErrCode.other) = Except.error ErrCode.other
  ∧ actualClose exFsync (some ErrCode.other) none = actualClose exFsync none none :=
  c6_fsync_behavior exFsync ErrCode.other (some ErrCode.other) none none
    (by decide) (by decide)

/-- C4 counterexample: a non-retryable (`other`-class) write error during
`flushSync` does not raise — the loop sleeps and retries, and a subsequent
successful write completes the flush normally — refuting the claim that
non-retryable errors propagate by raising.  Both content modes. -/
theorem c4_counterexample :
    (flushSync exFlushChunk [WriteRes.err ErrCode.other, WriteRes.ok 2]).isRaised = false
  ∧ (flushSync exFlushChunk [WriteRes.err ErrCode.other, WriteRes.ok 2]).isDone = true
  ∧ (flushBufferSync exFlushChunk
      [WriteRes.err ErrCode.other, WriteRes.ok 2]).isRaised = false
  ∧ (flushBufferSync exFlushChunk
      [WriteRes.err ErrCode.other, WriteRes.ok 2]).isDone = true := by
  refine ⟨by decide, by decide, by decide, by decide⟩

/-- A raise out of the `flushSync` loop happens only for a retryable-class
error whose retry predicate declined, and the raised state is the loop
state of that very iteration (its queued chunks untouched by the raise). -/
theorem flushSyncLoop_raised (rs : List WriteRes) :
    ∀ (s : SonicState) (buf : Bytes) (s' : SonicState) (e : ErrCode),
      flushSyncLoop s buf rs = FSRes.raised s' e →
      (e = ErrCode.EAGAIN ∨ e = ErrCode.EBUSY)
      ∧ ∃ b : Bytes, s'.retryEAGAIN e b.length (s'.len - (b.length : Int)) = false := by
  induction rs with
  | nil =>
    intro s buf s' e h
    unfold flushSyncLoop at h
    split at h <;> simp at h
  | cons r rs ih =>
    intro s buf s' e h
    cases r with
    | ok n =>
      simp only [flushSyncLoop] at h
      split at h
      · simp at h
      · generalize (if buf = [] then s.bufs.headD [] else buf) = b1 at h
        split at h
        · exact ih _ _ _ _ h
        · exact ih _ _ _ _ h
    | err c =>
      simp only [flushSyncLoop] at h
      split at h
      · simp at h
      · generalize (if buf = [] then s.bufs.headD [] else buf) = b1 at h
        split at h
        · next hcond =>
          cases h
          exact ⟨hcond.1, ⟨b1, by simpa using hcond.2⟩⟩
        · exact ih _ _ _ _ h

/-- The buffer-mode analogue of `flushSyncLoop_raised`. -/
theorem flushBufferSyncLoop_raised (rs : List WriteRes) :
    ∀ (s : SonicState) (buf : Bytes) (s' : SonicState) (e : ErrCode),
      flushBufferSyncLoop s buf rs = FSRes.raised s' e →
      (e = ErrCode.EAGAIN ∨ e = ErrCode.EBUSY)
      ∧ ∃ b : Bytes, s'.retryEAGAIN e b.length (s'.len - (b.length : Int)) = false := by
  induction rs with
  | nil =>
    intro s buf s' e h
    unfold flushBufferSyncLoop at h
    split at h <;> simp at h
  | cons r rs ih =>
    intro s buf s' e h
    cases r with
    | ok n =>
      simp only [flushBufferSyncLoop] at h
      split at h
      · simp at h
      · generalize (if buf = [] then mergeBuf (s.bufs2.headD []) else buf) = b1 at h
        split at h
        · exact ih _ _ _ _ h
        · exact ih _ _ _ _ h
    | err c =>
      simp only [flushBufferSyncLoop] at h
      split at h
      · simp at h
      · generalize (if buf = [] then mergeBuf (s.bufs2.headD []) else buf) = b1 at h
        split at h
        · next hcond =>
          cases h
          exact ⟨hcond.1, ⟨b1, by simpa using hcond.2⟩⟩
        · exact ih _ _ _ _ h

/-- C4 amended: `flushSync` raises only when the failed OS write threw a
retryable-class error (`EAGAIN`/`EBUSY`) and the retry predicate declined
— every other error class is slept on and retried in place — and the
raised state still holds the then-current queued data.  Both content
modes. -/
theorem c4_raise_only_retryable (s : SonicState) (rs : List WriteRes)
    (s' : SonicState) (e : ErrCode)
    (h : flushSync s rs = FSRes.raised s' e ∨ flushBufferSync s rs = FSRes.raised s' e) :
    (e = ErrCode.EAGAIN ∨ e = ErrCode.EBUSY)
  ∧ ∃ b : Bytes, s'.retryEAGAIN e b.length (s'.len - (b.length : Int)) = false := by
  rcases h with h | h
  · unfold flushSync at h
    split at h
    · simp at h
    · split at h
      · simp at h
      · exact flushSyncLoop_raised rs _ [] s' e h
  · unfold flushBufferSync at h
    split at h
    · simp at h
    · split at h
      · simp at h
      · exact flushBufferSyncLoop_raised rs _ [] s' e h

/-- C4 amended witness: an `EAGAIN` with an always-declining predicate is
raised. -/
theorem c4_raise_only_retryable_witness :
    (ErrCode.EAGAIN = ErrCode.EAGAIN ∨ ErrCode.EAGAIN = ErrCode.EBUSY)
  ∧ ∃ b : Bytes,
      exRefuse.retryEAGAIN ErrCode.EAGAIN b.length (exRefuse.len - (b.length : Int)) = false :=
  c4_raise_only_retryable exRefuse [WriteRes.err ErrCode.EAGAIN] exRefuse ErrCode.EAGAIN
    (Or.inl rfl)

/-- Conservation transfers along states whose four relevant fields agree. -/
theorem conserved_fields (s t : SonicState) (h : Conserved s)
    (h1 : t.delivered = s.delivered) (h2 : t.writingBuf = s.writingBuf)
    (h3 : t.bufs = s.bufs) (h4 : t.enqueued = s.enqueued) : Conserved t := by
  unfold Conserved at *
  rw [h1, h2, h3, h4]
  exact h

/-- Appending a datum to the chunk list extends its flattening by exactly
that datum, whether the tail chunk grows or a new chunk starts. -/
theorem flatten_chunkAppend (bufs : List Bytes) (d : Bytes) (mw : Nat) :
    (chunkAppend bufs d mw).flatten = bufs.flatten ++ d := by
  rcases hL : bufs.getLast? with _ | tail
  · have hnil := List.getLast?_eq_none_iff.mp hL
    simp [chunkAppend, hL, hnil]
  · simp only [chunkAppend, hL]
    split
    · simp
    · obtain ⟨hne, heq⟩ :=
        List.mem_getLast?_eq_getLast (l := bufs) (x := tail) (by rw [hL]; rfl)
      conv_rhs => rw [← List.dropLast_append_getLast hne]
      simp [List.flatten_append, ← heq, List.append_assoc]

/-- Chunk selection preserves conservation: it moves the head pending
chunk (if any) into the in-flight slot. -/
theorem actualWriteSelect_conserved (s : SonicState) (h : Conserved s) :
    Conserved (actualWriteSelect s) := by
  unfold Conserved actualWriteSelect at *
  split
  · simpa using h
  · next hw =>
    have hwb : s.writingBuf = [] := by
      simpa using hw
    rcases hb : s.bufs with _ | ⟨b, rest⟩
    · rw [hb] at h
      simpa using h
    · rw [hb, hwb] at h
      simp only [List.flatten_cons, List.nil_append] at h
      simpa [List.append_assoc] using h

/-- Release accounting preserves conservation: the delivered prefix and
the kept remainder recombine to the submitted chunk. -/
theorem releaseAcct_conserved (s : SonicState) (n : Nat) (h : Conserved s) :
    Conserved (releaseAcct s n) := by
  unfold Conserved releaseAcct at *
  rw [← List.take_append_drop n s.writingBuf] at h
  simpa [List.append_assoc] using h

/-- The dispatch decision preserves conservation while no `end()` is in
progress. -/
theorem releaseDispatch_conserved (s : SonicState) (hend : s.ending = false)
    (h : Conserved s) : Conserved (releaseDispatch s) := by
  unfold releaseDispatch
  split
  · exact conserved_fields s _ h rfl rfl rfl rfl
  · split
    · exact actualWriteSelect_conserved s h
    · split
      · next hE =>
        rw [hend] at hE
        exact absurd hE (by simp)
      · exact conserved_fields s _ h rfl rfl rfl rfl

/-- A successful OS write step preserves conservation while no `end()` is
in progress. -/
theorem osStep_conserved (s : SonicState) (k : Nat) (hend : s.ending = false)
    (h : Conserved s) : Conserved (osStep s k) := by
  simp only [osStep]
  split
  · have h1 : Conserved (releaseAcct s (min k s.writingBuf.length)) :=
      releaseAcct_conserved _ _ h
    split
    · exact h1
    · exact releaseDispatch_conserved _ hend h1
  · exact h

/-- An accepted (non-dropping) enqueue preserves conservation: the ghost
`enqueued` and the buffered bytes grow by the same datum. -/
theorem writeStep_conserved (s : SonicState) (d : Bytes) (h : Conserved s)
    (hlen : ((writeStep s d).1).dropEvents.length = s.dropEvents.length) :
    Conserved (writeStep s d).1 := by
  by_cases hdrop : s.maxLength ≠ 0 ∧ s.len + (d.length : Int) > (s.maxLength : Int)
  · simp only [writeStep, if_pos hdrop] at hlen
    simp at hlen
  · simp only [writeStep, if_neg hdrop]
    have hs1 : Conserved { s with
        bufs := chunkAppend s.bufs d s.maxWrite,
        len := s.len + (d.length : Int),
        enqueued := s.enqueued ++ d } := by
      unfold Conserved at h ⊢
      simp only [flatten_chunkAppend]
      simp only [← List.append_assoc]
      rw [h]
    split
    · exact actualWriteSelect_conserved _ hs1
    · exact hs1

/-- Chunk selection does not touch the ghost fields or the lifecycle
flags `ending` and `destroyed`. -/
theorem actualWriteSelect_misc (s : SonicState) :
    (actualWriteSelect s).dropEvents = s.dropEvents
  ∧ (actualWriteSelect s).ending = s.ending
  ∧ (actualWriteSelect s).destroyed = s.destroyed := by
  unfold actualWriteSelect
  split
  · exact ⟨rfl, rfl, rfl⟩
  · cases s.bufs <;> exact ⟨rfl, rfl, rfl⟩

/-- The dispatch decision does not touch the drop history or `ending`. -/
theorem releaseDispatch_misc (s : SonicState) :
    (releaseDispatch s).dropEvents = s.dropEvents
  ∧ (releaseDispatch s).ending = s.ending := by
  unfold releaseDispatch
  split
  · exact ⟨rfl, rfl⟩
  · split
    · exact ⟨(actualWriteSelect_misc s).1, (actualWriteSelect_misc s).2.1⟩
    · split
      · split
        · exact ⟨(actualWriteSelect_misc s).1, (actualWriteSelect_misc s).2.1⟩
        · exact ⟨rfl, rfl⟩
      · exact ⟨rfl, rfl⟩

/-- A successful OS write step does not touch the drop history or
`ending`. -/
theorem osStep_misc (s : SonicState) (k : Nat) :
    (osStep s k).dropEvents = s.dropEvents ∧ (osStep s k).ending = s.ending := by
  simp only [osStep]
  split
  · split
    · exact ⟨rfl, rfl⟩
    · exact ⟨(releaseDispatch_misc _).1, (releaseDispatch_misc _).2⟩
  · exact ⟨rfl, rfl⟩

/-- One machine step never removes recorded drop events and never changes
`ending`. -/
theorem step_misc (s : SonicState) (e : Ev) :
    s.dropEvents.length ≤ (step s e).dropEvents.length
  ∧ (step s e).ending = s.ending := by
  cases e with
  | enq d =>
    simp only [step]
    split
    · exact ⟨le_refl _, rfl⟩
    · by_cases hdrop : s.maxLength ≠ 0 ∧ s.len + (d.length : Int) > (s.maxLength : Int)
      · simp only [writeStep, if_pos hdrop]
        constructor
        · simp
        · trivial
      · simp only [writeStep, if_neg hdrop]
        split
        · refine ⟨le_of_eq ?_, (actualWriteSelect_misc _).2.1⟩
          rw [(actualWriteSelect_misc _).1]
        · exact ⟨le_refl _, rfl⟩
  | osw k =>
    simp only [step]
    exact ⟨le_of_eq (congrArg List.length ((osStep_misc s k).1)).symm, (osStep_misc s k).2⟩

/-- One machine step preserves conservation whenever it records no new
drop event and no `end()` is in progress. -/
theorem step_conserved (s : SonicState) (e : Ev) (h : Conserved s)
    (hend : s.ending = false)
    (hlen : (step s e).dropEvents.length = s.dropEvents.length) :
    Conserved (step s e) := by
  cases e with
  | enq d =>
    simp only [step] at hlen ⊢
    split at hlen
    · next hdes =>
      rw [if_pos hdes]
      exact h
    · next hdes =>
      rw [if_neg hdes]
      exact writeStep_conserved s d h hlen
  | osw k =>
    exact osStep_conserved s k hend h

/-- Drop events are never removed along a run. -/
theorem runFrom_drop_mono (evs : List Ev) :
    ∀ s : SonicState, s.dropEvents.length ≤ (runFrom s evs).dropEvents.length := by
  induction evs with
  | nil =>
    intro s
    exact le_refl _
  | cons e evs ih =>
    intro s
    exact le_trans (step_misc s e).1 (ih (step s e))

/-- A run that records no drop event preserves conservation and the
`ending = false` flag. -/
theorem runFrom_conserved (evs : List Ev) :
    ∀ s : SonicState, Conserved s → s.ending = false →
      (runFrom s evs).dropEvents.length = s.dropEvents.length →
      Conserved (runFrom s evs) ∧ (runFrom s evs).ending = false := by
  induction evs with
  | nil =>
    intro s h hend _
    exact ⟨h, hend⟩
  | cons e evs ih =>
    intro s h hend hlen
    have hrun : runFrom s (e :: evs) = runFrom (step s e) evs := rfl
    rw [hrun] at hlen
    have hmono1 := (step_misc s e).1
    have hmono2 := runFrom_drop_mono evs (step s e)
    have hstep_eq : (step s e).dropEvents.length = s.dropEvents.length := by omega
    have hC : Conserved (step s e) := step_conserved s e h hend hstep_eq
    have hE : (step s e).ending = false := by
      rw [(step_misc s e).2, hend]
    rw [hrun]
    exact ih (step s e) hC hE (by omega)

/-- C1: over any event trace of enqueues and successful (possibly partial)
OS writes that starts from a conserved, non-ending state and records no
drop event — in particular any trace whose cumulative enqueued length
never exceeds `maxLength` — the bytes handed to the OS, once the buffers
have fully drained, are exactly the concatenation of the enqueued bytes,
in order, with no byte duplicated or lost. -/
theorem c1_round_trip (s0 : SonicState) (evs : List Ev)
    (hc : Conserved s0) (hend : s0.ending = false)
    (hnd : (runFrom s0 evs).dropEvents.length = s0.dropEvents.length)
    (hwb : (runFrom s0 evs).writingBuf = [])
    (hbufs : (runFrom s0 evs).bufs = []) :
    (runFrom s0 evs).delivered = (runFrom s0 evs).enqueued := by
  have h := (runFrom_conserved evs s0 hc hend hnd).1
  unfold Conserved at h
  rw [hwb, hbufs] at h
  simpa using h

/-- C1 witness: a concrete drained trace — enqueue `[1,2]`, two partial OS
writes, enqueue `[3]`, one final OS write — delivers exactly `[1,2,3]`. -/
theorem c1_round_trip_witness :
    (runFrom (mkState 0 0 10 16387) c1evs).delivered =
      (runFrom (mkState 0 0 10 16387) c1evs).enqueued :=
  c1_round_trip (mkState 0 0 10 16387) c1evs rfl rfl
    (by decide) (by decide) (by decide)

end SB
